import Mathlib

/-!
# Verification of the tempo-coordinator-k8s operator's cluster logic

Shallow embedding of the coordinator's role-aggregation, consistency-check,
config-synthesis and publication logic, translated from:

  * `src/tempo_cluster.py` (`TempoRole`, `TempoClusterProvider.gather_roles`,
    `gather_addresses_by_role`, `gather_addresses`, `publish_data`,
    `DatabagModel.dump`),
  * `src/coordinator.py` (`MINIMAL_DEPLOYMENT`, `TempoCoordinator`,
    `_get_deployment_inconsistencies`),
  * `src/charm.py` (`TempoCoordinatorCharm._update_tempo_cluster` and the
    per-invocation consistency computation in `__init__`).

The backend config synthesizer (`src/tempo.py`) is not part of the source
tree here; the definitions that depend on it are modelled from the spec and
carry a doc comment saying so.

Python dicts and `collections.Counter` are embedded as insertion-ordered
association lists; Python sets of strings as duplicate-free lists (insertion
ordered; set semantics are recovered through membership lemmas).
-/

/-- `TempoRole` enum from `src/tempo_cluster.py`: the meta-role `all` plus the
six concrete roles, in declaration order. -/
inductive TempoRole where
  | all
  | querier
  | query_frontend
  | ingester
  | distributor
  | compactor
  | metrics_generator
deriving DecidableEq, Repr

/-- `TempoRole.all_nonmeta`: the concrete roles, in the order Python iterates
the enum when expanding the meta-role (`[r for r in TempoRole if r is not TempoRole.all]`). -/
def TempoRole.all_nonmeta : List TempoRole :=
  [.querier, .query_frontend, .ingester, .distributor, .compactor, .metrics_generator]

/-- One entry of `TempoClusterProvider._relations`: a worker application's
databag together with its remote units' databags.

`appRole` is the result of `TempoClusterRequirerAppData.load(relation.data[relation.app])`:
`some r` when the app databag decodes to role `r`, `none` when the relation has
no app or the databag fails validation (`DataValidationError`) — both cases make
`gather_roles` and `gather_addresses_by_role` skip the relation.

Each element of `units` is the result of
`TempoClusterRequirerUnitData.load(relation.data[worker_unit])`: `some a` when
the unit databag decodes and publishes address `a`, `none` on `DataValidationError`. -/
structure ClusterRelation where
  appRole : Option TempoRole
  units : List (Option String)
deriving DecidableEq, Repr

/-- A membership snapshot: the list of cluster relations observed in one pass. -/
abbrev Snapshot := List ClusterRelation

/-- `data[role] += n` on a `collections.Counter`: updates the entry in place, or
appends a new entry (even when `n = 0`, mirroring `Counter.__setitem__`). -/
def cincr (c : List (TempoRole × Nat)) (r : TempoRole) (n : Nat) :
    List (TempoRole × Nat) :=
  match c with
  | [] => [(r, n)]
  | (r', m) :: rest => if r' = r then (r', m + n) :: rest else (r', m) :: cincr rest r n

/-- `counter[role]` with the `Counter` default of `0` for absent keys. -/
def cget (c : List (TempoRole × Nat)) (r : TempoRole) : Nat :=
  match c with
  | [] => 0
  | (r', m) :: rest => if r' = r then m else cget rest r

/-- The keys of an association list, in insertion order. -/
def keysOf {α β : Type} (m : List (α × β)) : List α := m.map Prod.fst

/-- `set.add(a)` on a Python set embedded as a duplicate-free list. -/
def sadd (s : List String) (a : String) : List String :=
  if a ∈ s then s else s ++ [a]

/-- `data[role].add(addr)` on a `collections.defaultdict(set)`: inserts the key
with a fresh singleton set when absent, otherwise adds to the existing set. -/
def madd (m : List (TempoRole × List String)) (r : TempoRole) (a : String) :
    List (TempoRole × List String) :=
  match m with
  | [] => [(r, [a])]
  | (r', s) :: rest => if r' = r then (r', sadd s a) :: rest else (r', s) :: madd rest r a

/-- `mapping.get(role, ∅)`: the address set stored at a role, empty when absent. -/
def mget (m : List (TempoRole × List String)) (r : TempoRole) : List String :=
  match m with
  | [] => []
  | (r', s) :: rest => if r' = r then s else mget rest r

/-- Loop body of `TempoClusterProvider.gather_roles` for one relation: skip the
relation when the app databag does not decode; otherwise count
`role_n = len(relation.units)` units for the decoded role, expanding the `all`
meta-role into one `+= role_n` per concrete role. -/
def rolesStep (data : List (TempoRole × Nat)) (rel : ClusterRelation) :
    List (TempoRole × Nat) :=
  match rel.appRole with
  | none => data
  | some worker_role =>
    let role_n := rel.units.length
    if worker_role = TempoRole.all then
      TempoRole.all_nonmeta.foldl (fun d r => cincr d r role_n) data
    else
      cincr data worker_role role_n

/-- `TempoClusterProvider.gather_roles`: sum the available application roles
over all relations. (The trailing `del data[TempoRole.all]` in the source acts
on the `Counter` after `dct = dict(data)` was taken and the `all` key is never
inserted, so it has no effect on the returned dict.) -/
def gather_roles (snap : Snapshot) : List (TempoRole × Nat) :=
  snap.foldl rolesStep []

/-- Loop body of `gather_addresses_by_role` for one unit: on
`DataValidationError` the unit is skipped, otherwise its address is added to
the set stored under the relation's (undecoded-role-free) app role. -/
def unitStep (r : TempoRole) (data : List (TempoRole × List String))
    (u : Option String) : List (TempoRole × List String) :=
  match u with
  | none => data
  | some addr => madd data r addr

/-- Loop body of `TempoClusterProvider.gather_addresses_by_role` for one
relation: skip the relation when the app databag does not decode; otherwise
fold the units. Note the source adds each address under
`worker_app_data.role` as-is — the `all` meta-role is NOT expanded here. -/
def addrStep (data : List (TempoRole × List String)) (rel : ClusterRelation) :
    List (TempoRole × List String) :=
  match rel.appRole with
  | none => data
  | some role => rel.units.foldl (unitStep role) data

/-- `TempoClusterProvider.gather_addresses_by_role`: collect all addresses
published by the units, keyed by the role declared in each relation's app
databag. -/
def gather_addresses_by_role (snap : Snapshot) : List (TempoRole × List String) :=
  snap.foldl addrStep []

/-- `TempoClusterProvider.gather_addresses`: the union (`set.update`) of all
address sets of `gather_addresses_by_role`, in iteration order. -/
def gather_addresses (snap : Snapshot) : List String :=
  (gather_addresses_by_role snap).foldl (fun acc rs => rs.2.foldl sadd acc) []

/-- `MINIMAL_DEPLOYMENT` from `src/coordinator.py`: every required role needs
one instance. -/
def MINIMAL_DEPLOYMENT : List (TempoRole × Nat) :=
  [(.querier, 1), (.query_frontend, 1), (.ingester, 1), (.distributor, 1),
   (.compactor, 1), (.metrics_generator, 1)]

/-- `TempoCoordinator.is_coherent`:
`set(self._roles.keys()).issuperset(MINIMAL_DEPLOYMENT)`. -/
def is_coherent (roles : List (TempoRole × Nat)) : Bool :=
  (keysOf MINIMAL_DEPLOYMENT).all (fun r => decide (r ∈ keysOf roles))

/-- `TempoCoordinator.missing_roles`:
`set(MINIMAL_DEPLOYMENT).difference(self._roles.keys())` (as a list in the
fixed `MINIMAL_DEPLOYMENT` order; Python's value is the same set). -/
def missing_roles (roles : List (TempoRole × Nat)) : List TempoRole :=
  (keysOf MINIMAL_DEPLOYMENT).filter (fun r => decide (r ∉ keysOf roles))

/-- The Python value string of each role (`TempoRole(str, Enum)` values). -/
def roleStr : TempoRole → String
  | .all => "all"
  | .querier => "querier"
  | .query_frontend => "query-frontend"
  | .ingester => "ingester"
  | .distributor => "distributor"
  | .compactor => "compactor"
  | .metrics_generator => "metrics-generator"

/-- Rendering of the `missing_roles` set interpolated into the f-string of
`_get_deployment_inconsistencies`. Python renders a `set` whose element order
is unspecified; we fix the aggregation order. -/
def renderRoleSet (roles : List TempoRole) : String :=
  "\x7b" ++ String.intercalate ", " (roles.map roleStr) ++ "\x7d"

/-- The f-string `f"Incoherent coordinator: missing roles: {missing_roles}."`
of `TempoCoordinator._get_deployment_inconsistencies`. -/
def incoherentMsg (missing : List TempoRole) : String :=
  "Incoherent coordinator: missing roles: " ++ renderRoleSet missing ++ "."

/-- `TempoCoordinator._get_deployment_inconsistencies` from `src/coordinator.py`:
start from an empty failure list, append the s3 failure when `has_s3` is false,
append the incoherence failure when `coherent` is false. -/
def get_deployment_inconsistencies (has_s3 : Bool) (coherent : Bool)
    (missing : List TempoRole) : List String :=
  let failures : List String := []
  let failures := if !has_s3 then failures ++ ["Tempo has no s3 integration."] else failures
  let failures := if !coherent then failures ++ [incoherentMsg missing] else failures
  failures

/-- `TempoClusterProviderAppData` from `src/tempo_cluster.py`: `tempo_config`
is required, every other field defaults to `None`. Field values are kept in
their serialized (`json.dumps`) form as opaque strings. -/
structure TempoClusterProviderAppData where
  tempo_config : String
  loki_endpoints : Option String := none
  ca_cert : Option String := none
  server_cert : Option String := none
  privkey_secret_id : Option String := none
  tempo_receiver : Option String := none
deriving DecidableEq, Repr

/-- One optional field under `exclude_defaults=True`: emitted iff the value
differs from its `None` default. -/
def optField (name : String) : Option String → List (String × String)
  | none => []
  | some v => [(name, v)]

/-- The key/value pairs produced by
`self.model_dump(mode="json", by_alias=True, exclude_defaults=True)` inside
`DatabagModel.dump`: the required `tempo_config` always, each optional field
only when set, in the model's field-declaration order. -/
def dumpFields (d : TempoClusterProviderAppData) : List (String × String) :=
  [("tempo_config", d.tempo_config)]
    ++ optField "loki_endpoints" d.loki_endpoints
    ++ optField "ca_cert" d.ca_cert
    ++ optField "server_cert" d.server_cert
    ++ optField "privkey_secret_id" d.privkey_secret_id
    ++ optField "tempo_receiver" d.tempo_receiver

/-- `databag[k] = v`: replace the value in place when the key exists
(preserving dict order), append a new entry otherwise. -/
def bagSet (bag : List (String × String)) (k v : String) : List (String × String) :=
  match bag with
  | [] => [(k, v)]
  | (k', v') :: rest => if k' = k then (k', v) :: rest else (k', v') :: bagSet rest k v

/-- `DatabagModel.dump(databag, clear)` from `src/tempo_cluster.py`:
`if clear and databag: databag.clear()`, then
`databag.update({k: json.dumps(v) for k, v in dct.items()})`. -/
def DatabagModel.dump (d : TempoClusterProviderAppData)
    (databag : List (String × String)) (clear : Bool) : List (String × String) :=
  let databag := if clear && !databag.isEmpty then [] else databag
  (dumpFields d).foldl (fun b kv => bagSet b kv.1 kv.2) databag

/-- `TempoClusterProvider.publish_data`: build the provider app-data model and
dump it — with the default `clear = True` — into each related worker
application's databag. -/
def publish_data (d : TempoClusterProviderAppData)
    (bags : List (List (String × String))) : List (List (String × String)) :=
  bags.map (fun bag => DatabagModel.dump d bag true)

/-- `TempoCoordinatorCharm._update_tempo_cluster` from `src/charm.py`: return
the databags unchanged when the consistency verdict has failures
(`if not self._is_consistent: return`) or when this unit is not the leader
(`if not self.unit.is_leader(): return`); otherwise publish the freshly built
config to all related workers. -/
def update_tempo_cluster (inconsistencies : List String) (is_leader : Bool)
    (d : TempoClusterProviderAppData)
    (bags : List (List (String × String))) : List (List (String × String)) :=
  if !inconsistencies.isEmpty then bags
  else if !is_leader then bags
  else publish_data d bags

/-- One reconciliation invocation of `TempoCoordinatorCharm` as it affects the
cluster databags: `__init__` recomputes the consistency verdict from scratch
(`gather_roles` → `is_coherent` / `missing_roles` →
`get_deployment_inconsistencies`), then `_update_tempo_cluster` runs. The
function carries no state besides its inputs, mirroring that the charm object
is rebuilt on every event dispatch. -/
def charm_invocation (snap : Snapshot) (has_s3 : Bool) (is_leader : Bool)
    (d : TempoClusterProviderAppData)
    (bags : List (List (String × String))) : List (List (String × String)) :=
  update_tempo_cluster
    (get_deployment_inconsistencies has_s3 (is_coherent (gather_roles snap))
      (missing_roles (gather_roles snap)))
    is_leader d bags

/-- `a` occurs in some value set of the address mapping. -/
def appearsIn (m : List (TempoRole × List String)) (a : String) : Prop :=
  ∃ rs ∈ m, a ∈ rs.2

/-- Shape of the worker ingester config section asserted by
`tests/unit/test_tempo.py::test_tempo_ingester_config`
(`.lifecycler.ring.replication_factor`). -/
structure IngesterRing where
  replication_factor : Nat
deriving DecidableEq, Repr

structure IngesterLifecycler where
  ring : IngesterRing
deriving DecidableEq, Repr

structure IngesterConfig where
  lifecycler : IngesterLifecycler
deriving DecidableEq, Repr

/-- Modelled from the spec: `Tempo._build_ingester_config` lives in
`src/tempo.py`, which is absent from the source tree (only its unit test is
present). Spec §4.2: `replicationFactor = max(1, |AggregatedRoles[ingester].addresses|)`;
when no ingester role is present at all the factor is 1. Address sets are
embedded as lists, so set cardinality is the number of distinct elements. -/
def build_ingester_config (addresses : List (TempoRole × List String)) :
    IngesterConfig :=
  ⟨⟨⟨max 1 (mget addresses TempoRole.ingester).dedup.length⟩⟩⟩

/-- Shape of the worker memberlist config section asserted by
`tests/unit/test_tempo.py::test_tempo_memberlist_config`. -/
structure Memberlist where
  abort_if_cluster_join_fails : Bool
  bind_port : Nat
  join_members : List String
deriving DecidableEq, Repr

/-- Modelled from the spec: `Tempo._build_memberlist_config` lives in
`src/tempo.py`, which is absent from the source tree (only its unit test is
present). Spec §4.2: join members are the gathered worker addresses, each
suffixed with the fixed gossip port 7946; `abort_if_cluster_join_fails` is
false so startup never blocks on peer visibility. -/
def build_memberlist_config (peers : List String) : Memberlist :=
  { abort_if_cluster_join_fails := false
    bind_port := 7946
    join_members := peers.map (fun p => p ++ ":7946") }

/-- Shape of the metrics-generator block asserted by
`tests/scenario/test_config.py::test_metrics_generator`
(`config["metrics_generator"]["storage"]["remote_write"]`). -/
structure MetricsGeneratorStorage where
  remote_write : List String
deriving DecidableEq, Repr

structure MetricsGenerator where
  storage : MetricsGeneratorStorage
deriving DecidableEq, Repr

/-- The metrics-related sections of the synthesized backend config. A section
is absent (`none`) when the key does not appear in the config mapping at all.
The spec fixes only the presence of the overrides section, not its content. -/
structure TempoBackendMetricsSections where
  metrics_generator : Option MetricsGenerator
  overrides : Option Unit
deriving DecidableEq, Repr

/-- Modelled from the spec: the config generation of `src/tempo.py` is absent
from the source tree (only its scenario test is present). Spec §4.2: the
metrics-generator block is included only if a remote-write target was
supplied, with the supplied targets embedded; its absence must produce a
config with no `metrics_generator` or `overrides` section at all. An empty
target list means no target was supplied. -/
def generate_metrics_sections (remote_write_targets : List String) :
    TempoBackendMetricsSections :=
  if remote_write_targets.isEmpty then
    { metrics_generator := none, overrides := none }
  else
    { metrics_generator := some ⟨⟨remote_write_targets⟩⟩, overrides := some () }

theorem cget_cincr (c : List (TempoRole × Nat)) (r q : TempoRole) (n : Nat) :
    cget (cincr c r n) q = if q = r then cget c q + n else cget c q := by
  induction c with
  | nil =>
    by_cases h : q = r
    · subst h; simp [cincr, cget]
    · have h' : ¬r = q := fun hc => h hc.symm
      simp [cincr, cget, h, h']
  | cons hd tl ih =>
    obtain ⟨a, m⟩ := hd
    by_cases har : a = r
    · subst har
      by_cases haq : a = q
      · subst haq; simp [cincr, cget]
      · have h' : ¬q = a := fun hc => haq hc.symm
        simp [cincr, cget, haq, h']
    · by_cases haq : a = q
      · subst haq
        have h' : ¬a = r := har
        simp [cincr, cget, har, h']
      · simp [cincr, cget, har, haq, ih]

theorem mem_keysOf_cincr (c : List (TempoRole × Nat)) (r q : TempoRole) (n : Nat) :
    q ∈ keysOf (cincr c r n) ↔ q = r ∨ q ∈ keysOf c := by
  induction c with
  | nil => simp [cincr, keysOf]
  | cons hd tl ih =>
    obtain ⟨a, m⟩ := hd
    by_cases har : a = r
    · subst har
      have hc : cincr ((a, m) :: tl) a n = (a, m + n) :: tl := by simp [cincr]
      rw [hc]
      simp only [keysOf, List.map_cons, List.mem_cons]
      tauto
    · have hc : cincr ((a, m) :: tl) r n = (a, m) :: cincr tl r n := by simp [cincr, har]
      rw [hc]
      simp only [keysOf, List.map_cons, List.mem_cons]
      simp only [keysOf] at ih
      tauto

/-- C1, part of the claim as stated: `is_coherent` is the superset test of the
role keys against the minimal-deployment role set. -/
theorem is_coherent_iff (roles : List (TempoRole × Nat)) :
    is_coherent roles = true ↔
      ∀ r ∈ keysOf MINIMAL_DEPLOYMENT, r ∈ keysOf roles := by
  simp [is_coherent]

/-- C1, part of the claim as stated: `missing_roles` holds exactly the minimal
roles absent from the aggregated mapping. -/
theorem mem_missing_roles_iff (roles : List (TempoRole × Nat)) (r : TempoRole) :
    r ∈ missing_roles roles ↔
      r ∈ keysOf MINIMAL_DEPLOYMENT ∧ r ∉ keysOf roles := by
  simp [missing_roles, List.mem_filter]

/-- C1: for every membership snapshot, the coherence verdict computed by
`TempoCoordinator.__init__` over `gather_roles` satisfies: `is_coherent` is
true iff the aggregated role keys are a superset of the minimal-deployment
role set, and `missing_roles` holds exactly the minimal roles absent from the
aggregated mapping; in particular the empty snapshot yields
`is_coherent = false` with every minimal role missing. -/
theorem C1_coherence_verdict (snap : Snapshot) :
    (is_coherent (gather_roles snap) = true ↔
      ∀ r ∈ keysOf MINIMAL_DEPLOYMENT, r ∈ keysOf (gather_roles snap))
    ∧ (∀ r, r ∈ missing_roles (gather_roles snap) ↔
        r ∈ keysOf MINIMAL_DEPLOYMENT ∧ r ∉ keysOf (gather_roles snap))
    ∧ is_coherent (gather_roles []) = false
    ∧ missing_roles (gather_roles []) = keysOf MINIMAL_DEPLOYMENT := by
  refine ⟨is_coherent_iff _, fun r => mem_missing_roles_iff _ r, by decide, by decide⟩

/-- The two failure messages never coincide (their lengths differ). -/
theorem incoherentMsg_ne (missing : List TempoRole) :
    incoherentMsg missing ≠ "Tempo has no s3 integration." := by
  intro h
  have hl := congrArg String.length h
  simp only [incoherentMsg, renderRoleSet, String.length_append] at hl
  have h1 : ("Incoherent coordinator: missing roles: " : String).length = 39 := by decide
  have h2 : ("\x7b" : String).length = 1 := by decide
  have h3 : ("\x7d" : String).length = 1 := by decide
  have h4 : ("." : String).length = 1 := by decide
  have h5 : ("Tempo has no s3 integration." : String).length = 28 := by decide
  rw [h1, h2, h3, h4, h5] at hl
  omega

/-- C6: the failure list of `_get_deployment_inconsistencies` contains the
missing-s3 entry iff s3 is absent, contains the formatted incoherence entry
iff the deployment is not coherent, and is empty exactly when s3 is present
and the deployment is coherent (the charm then proceeds to synthesis: see
`C4_publish_gating`). -/
theorem C6_deployment_inconsistencies (has_s3 coherent : Bool)
    (missing : List TempoRole) :
    ("Tempo has no s3 integration." ∈
        get_deployment_inconsistencies has_s3 coherent missing ↔ has_s3 = false)
    ∧ (incoherentMsg missing ∈
        get_deployment_inconsistencies has_s3 coherent missing ↔ coherent = false)
    ∧ (get_deployment_inconsistencies has_s3 coherent missing = [] ↔
        has_s3 = true ∧ coherent = true) := by
  cases has_s3 <;> cases coherent <;>
    simp [get_deployment_inconsistencies, incoherentMsg_ne missing,
      Ne.symm (incoherentMsg_ne missing)]

theorem bagSet_of_not_mem (bag : List (String × String)) (k v : String)
    (h : k ∉ keysOf bag) : bagSet bag k v = bag ++ [(k, v)] := by
  induction bag with
  | nil => rfl
  | cons hd tl ih =>
    obtain ⟨k', v'⟩ := hd
    simp only [keysOf, List.map_cons, List.mem_cons] at h
    push_neg at h
    have hne : ¬k' = k := fun hc => h.1 hc.symm
    simp [bagSet, hne, ih (by simpa [keysOf] using h.2)]

theorem foldl_bagSet_disjoint (kvs acc : List (String × String))
    (hnd : (keysOf kvs).Nodup) (hdisj : ∀ k ∈ keysOf kvs, k ∉ keysOf acc) :
    kvs.foldl (fun b kv => bagSet b kv.1 kv.2) acc = acc ++ kvs := by
  induction kvs generalizing acc with
  | nil => simp
  | cons hd tl ih =>
    obtain ⟨k, v⟩ := hd
    simp only [keysOf, List.map_cons, List.nodup_cons] at hnd
    have hk : k ∉ keysOf acc := hdisj k (by simp [keysOf])
    have hstep : bagSet acc k v = acc ++ [(k, v)] := bagSet_of_not_mem acc k v hk
    have hdisj' : ∀ k' ∈ keysOf tl, k' ∉ keysOf (acc ++ [(k, v)]) := by
      intro k' hk'
      have hmemc : k' ∈ keysOf ((k, v) :: tl) := by
        simp only [keysOf, List.map_cons, List.mem_cons]
        right; simpa [keysOf] using hk'
      have hnacc : k' ∉ keysOf acc := hdisj k' hmemc
      have hne : k' ≠ k := by
        intro hkk
        exact hnd.1 (by simpa [keysOf, hkk] using hk')
      simp only [keysOf, List.map_append, List.mem_append, List.map_cons,
        List.map_nil, List.mem_singleton]
      push_neg
      exact ⟨by simpa [keysOf] using hnacc, hne⟩
    calc List.foldl (fun b kv => bagSet b kv.1 kv.2) (bagSet acc k v) tl
      = (acc ++ [(k, v)]) ++ tl := by rw [hstep]; exact ih _ hnd.2 hdisj'
    _ = acc ++ (k, v) :: tl := by simp

theorem keysOf_append {α β : Type} (a b : List (α × β)) :
    keysOf (a ++ b) = keysOf a ++ keysOf b := by
  simp [keysOf]

theorem keysOf_optField_sublist (n : String) (o : Option String) :
    (keysOf (optField n o)).Sublist [n] := by
  cases o
  · exact List.nil_sublist _
  · exact List.Sublist.refl _

theorem dumpFields_keys_nodup (d : TempoClusterProviderAppData) :
    (keysOf (dumpFields d)).Nodup := by
  obtain ⟨tc, lo, ca, sc, pk, tr⟩ := d
  cases lo <;> cases ca <;> cases sc <;> cases pk <;> cases tr <;>
    simp [dumpFields, optField, keysOf]

/-- `dump` with `clear = True` replaces the databag wholesale: the result is
exactly the dumped fields, whatever the databag held before. -/
theorem dump_clear_eq_dumpFields (d : TempoClusterProviderAppData)
    (bag : List (String × String)) :
    DatabagModel.dump d bag true = dumpFields d := by
  have hbag : (if true && !bag.isEmpty then [] else bag) = ([] : List (String × String)) := by
    cases bag <;> simp
  rw [DatabagModel.dump]
  rw [hbag]
  simpa using foldl_bagSet_disjoint (dumpFields d) [] (dumpFields_keys_nodup d)
    (by intro k _; simp [keysOf])

theorem mem_keysOf_optField (k n : String) (o : Option String) :
    k ∈ keysOf (optField n o) ↔ k = n ∧ o ≠ none := by
  cases o <;> simp [optField, keysOf]

/-- C9: every publish is a full replace. `publish_data` rewrites each related
worker's databag to exactly the dumped model fields, independent of the
databag's previous contents, and a field left at its `None` default produces
no key at all in the stored record (so stale values cannot survive). -/
theorem C9_publish_full_replace (d : TempoClusterProviderAppData)
    (bags : List (List (String × String))) (bag : List (String × String)) :
    publish_data d bags = bags.map (fun _ => dumpFields d)
    ∧ DatabagModel.dump d bag true = dumpFields d
    ∧ "tempo_config" ∈ keysOf (dumpFields d)
    ∧ ("loki_endpoints" ∈ keysOf (dumpFields d) ↔ d.loki_endpoints ≠ none)
    ∧ ("ca_cert" ∈ keysOf (dumpFields d) ↔ d.ca_cert ≠ none)
    ∧ ("server_cert" ∈ keysOf (dumpFields d) ↔ d.server_cert ≠ none)
    ∧ ("privkey_secret_id" ∈ keysOf (dumpFields d) ↔ d.privkey_secret_id ≠ none)
    ∧ ("tempo_receiver" ∈ keysOf (dumpFields d) ↔ d.tempo_receiver ≠ none) := by
  refine ⟨?_, dump_clear_eq_dumpFields d bag, ?_, ?_, ?_, ?_, ?_, ?_⟩
  · simp [publish_data, dump_clear_eq_dumpFields]
  all_goals
    simp only [dumpFields, keysOf_append, List.mem_append, mem_keysOf_optField]
    simp [keysOf]

/-- C4: on every invocation the derived config is published iff the freshly
recomputed verdict has no failures and the unit is the leader; with any
failure, or on a non-leader, the databags are left untouched. Because the
verdict is recomputed from the current snapshot on each call, there is no
sticky state that could keep publishing after a verdict flip. -/
theorem C4_publish_gating (snap : Snapshot) (has_s3 is_leader : Bool)
    (d : TempoClusterProviderAppData) (bags : List (List (String × String))) :
    (get_deployment_inconsistencies has_s3 (is_coherent (gather_roles snap))
          (missing_roles (gather_roles snap)) = [] ∧ is_leader = true →
        charm_invocation snap has_s3 is_leader d bags = publish_data d bags)
    ∧ (get_deployment_inconsistencies has_s3 (is_coherent (gather_roles snap))
          (missing_roles (gather_roles snap)) ≠ [] ∨ is_leader = false →
        charm_invocation snap has_s3 is_leader d bags = bags) := by
  constructor
  · rintro ⟨hfail, hlead⟩
    simp [charm_invocation, update_tempo_cluster, hfail, hlead]
  · rintro (hfail | hlead)
    · have hne : (get_deployment_inconsistencies has_s3
          (is_coherent (gather_roles snap))
          (missing_roles (gather_roles snap))).isEmpty = false := by
        rcases h : get_deployment_inconsistencies has_s3
            (is_coherent (gather_roles snap)) (missing_roles (gather_roles snap)) with _ | ⟨a, t⟩
        · exact absurd h hfail
        · rfl
      simp [charm_invocation, update_tempo_cluster, hne]
    · simp [charm_invocation, update_tempo_cluster, hlead]

/-- C4 witness: a coherent snapshot (one `all`-role worker), s3 present and
leadership held does publish; the same snapshot without leadership leaves a
pre-existing stale databag untouched. -/
theorem C4_publish_gating_witness :
    (charm_invocation [⟨some TempoRole.all, [some "worker-0"]⟩] true true
        ⟨"cfg", none, none, none, none, none⟩ [[("old", "stale")]]
      = publish_data ⟨"cfg", none, none, none, none, none⟩ [[("old", "stale")]])
    ∧ (charm_invocation [⟨some TempoRole.all, [some "worker-0"]⟩] true false
        ⟨"cfg", none, none, none, none, none⟩ [[("old", "stale")]]
      = [[("old", "stale")]]) :=
  ⟨(C4_publish_gating [⟨some TempoRole.all, [some "worker-0"]⟩] true true
      ⟨"cfg", none, none, none, none, none⟩ [[("old", "stale")]]).1 ⟨by decide, rfl⟩,
   (C4_publish_gating [⟨some TempoRole.all, [some "worker-0"]⟩] true false
      ⟨"cfg", none, none, none, none, none⟩ [[("old", "stale")]]).2 (Or.inr rfl)⟩

theorem mem_sadd (s : List String) (a b : String) :
    b ∈ sadd s a ↔ b = a ∨ b ∈ s := by
  by_cases h : a ∈ s
  · simp only [sadd, if_pos h]
    exact ⟨Or.inr, fun h' => h'.elim (fun e => e ▸ h) id⟩
  · simp only [sadd, if_neg h, List.mem_append, List.mem_singleton]
    tauto

theorem mget_madd (m : List (TempoRole × List String)) (r q : TempoRole) (a : String) :
    mget (madd m r a) q = if q = r then sadd (mget m q) a else mget m q := by
  induction m with
  | nil =>
    by_cases h : q = r
    · subst h; simp [madd, mget, sadd]
    · have h' : ¬r = q := fun hc => h hc.symm
      simp [madd, mget, h, h']
  | cons hd tl ih =>
    obtain ⟨b, s⟩ := hd
    by_cases hbr : b = r
    · subst hbr
      by_cases hbq : b = q
      · subst hbq; simp [madd, mget]
      · have h' : ¬q = b := fun hc => hbq hc.symm
        simp [madd, mget, hbq, h']
    · by_cases hbq : b = q
      · subst hbq
        have h' : ¬b = r := hbr
        simp [madd, mget, hbr, h']
      · simp [madd, mget, hbr, hbq, ih]

theorem mem_mget_foldl_units (us : List (Option String)) (r : TempoRole)
    (m : List (TempoRole × List String)) (a : String) :
    a ∈ mget (us.foldl (unitStep r) m) r ↔ some a ∈ us ∨ a ∈ mget m r := by
  induction us generalizing m with
  | nil => simp
  | cons u tl ih =>
    cases u with
    | none => simp [unitStep, ih]
    | some b =>
      simp only [List.foldl_cons, unitStep]
      rw [ih, mget_madd]
      simp [mem_sadd]
      tauto

theorem not_mem_keysOf_foldl_cincr (rs : List TempoRole)
    (acc : List (TempoRole × Nat)) (n : Nat) (q : TempoRole)
    (hq : q ∉ rs) (hacc : q ∉ keysOf acc) :
    q ∉ keysOf (rs.foldl (fun d r => cincr d r n) acc) := by
  induction rs generalizing acc with
  | nil => exact hacc
  | cons r tl ih =>
    simp only [List.mem_cons] at hq
    push_neg at hq
    exact ih _ hq.2 (fun hmem =>
      ((mem_keysOf_cincr acc r q n).1 hmem).elim hq.1 hacc)

theorem cget_foldl_cincr_not_mem (rs : List TempoRole)
    (acc : List (TempoRole × Nat)) (n : Nat) (q : TempoRole) (hq : q ∉ rs) :
    cget (rs.foldl (fun d r => cincr d r n) acc) q = cget acc q := by
  induction rs generalizing acc with
  | nil => rfl
  | cons r tl ih =>
    simp only [List.mem_cons] at hq
    push_neg at hq
    rw [List.foldl_cons, ih (cincr acc r n) hq.2, cget_cincr]
    exact if_neg hq.1

theorem cget_foldl_cincr_mem (rs : List TempoRole)
    (acc : List (TempoRole × Nat)) (n : Nat) (q : TempoRole)
    (hnd : rs.Nodup) (hq : q ∈ rs) :
    cget (rs.foldl (fun d r => cincr d r n) acc) q = cget acc q + n := by
  induction rs generalizing acc with
  | nil => cases hq
  | cons r tl ih =>
    simp only [List.nodup_cons] at hnd
    rw [List.foldl_cons]
    rcases List.mem_cons.1 hq with hqr | hqtl
    · subst hqr
      rw [cget_foldl_cincr_not_mem tl (cincr acc q n) n q hnd.1, cget_cincr, if_pos rfl]
    · have hqr : q ≠ r := fun hc => hnd.1 (hc ▸ hqtl)
      rw [ih (cincr acc r n) hnd.2 hqtl, cget_cincr, if_neg hqr]

theorem all_not_mem_keysOf_gather_roles_aux (snap : Snapshot)
    (acc : List (TempoRole × Nat)) (hacc : TempoRole.all ∉ keysOf acc) :
    TempoRole.all ∉ keysOf (snap.foldl rolesStep acc) := by
  induction snap generalizing acc with
  | nil => exact hacc
  | cons rel tl ih =>
    rw [List.foldl_cons]
    apply ih
    rcases hrel : rel.appRole with _ | wr
    · simpa [rolesStep, hrel] using hacc
    · by_cases hw : wr = TempoRole.all
      · subst hw
        simp only [rolesStep, hrel, if_pos rfl]
        exact not_mem_keysOf_foldl_cincr TempoRole.all_nonmeta acc rel.units.length
          TempoRole.all (by decide) hacc
      · simp only [rolesStep, hrel, if_neg hw]
        intro hmem
        rcases (mem_keysOf_cincr acc wr TempoRole.all rel.units.length).1 hmem with h1 | h1
        · exact hw h1.symm
        · exact hacc h1

/-- The `all` meta-role never appears among the keys of `gather_roles`. -/
theorem all_not_mem_keysOf_gather_roles (snap : Snapshot) :
    TempoRole.all ∉ keysOf (gather_roles snap) :=
  all_not_mem_keysOf_gather_roles_aux snap [] (by simp [keysOf])

/-- C2 counterexample: a snapshot with a single `all`-role worker publishing
address `a`. `gather_addresses_by_role` keeps the address under the literal
`all` key — it is not contributed to any concrete role's address set, and the
meta-role does appear as a key of the aggregated output. -/
theorem C2_counterexample :
    gather_addresses_by_role [⟨some TempoRole.all, [some "a"]⟩]
        = [(TempoRole.all, ["a"])]
    ∧ TempoRole.all ∈ keysOf (gather_addresses_by_role
        [⟨some TempoRole.all, [some "a"]⟩])
    ∧ mget (gather_addresses_by_role [⟨some TempoRole.all, [some "a"]⟩])
        TempoRole.ingester = [] :=
  ⟨rfl, by decide, rfl⟩

/-- C2 amended: the meta-role is expanded (one count unit per concrete role
per member) by `gather_roles`, whose output never carries the `all` key; but
`gather_addresses_by_role` does not expand it — an `all` member's address is
recorded under the literal `all` key. -/
theorem C2_amended_meta_role (snap : Snapshot) (rel : ClusterRelation)
    (h : rel.appRole = some TempoRole.all) :
    TempoRole.all ∉ keysOf (gather_roles snap)
    ∧ (∀ r ∈ TempoRole.all_nonmeta,
        cget (gather_roles (snap ++ [rel])) r
          = cget (gather_roles snap) r + rel.units.length)
    ∧ (∀ a, some a ∈ rel.units →
        a ∈ mget (gather_addresses_by_role (snap ++ [rel])) TempoRole.all) := by
  refine ⟨all_not_mem_keysOf_gather_roles snap, ?_, ?_⟩
  · intro r hr
    have hstep : gather_roles (snap ++ [rel])
        = rolesStep (gather_roles snap) rel := by
      simp [gather_roles, List.foldl_append]
    rw [hstep]
    simp only [rolesStep, h, if_pos rfl]
    exact cget_foldl_cincr_mem TempoRole.all_nonmeta (gather_roles snap)
      rel.units.length r (by decide) hr
  · intro a ha
    have hstep : gather_addresses_by_role (snap ++ [rel])
        = addrStep (gather_addresses_by_role snap) rel := by
      simp [gather_addresses_by_role, List.foldl_append]
    rw [hstep]
    simp only [addrStep, h]
    exact (mem_mget_foldl_units rel.units TempoRole.all _ a).2 (Or.inl ha)

/-- C2 amended witness: one `all` worker with two units after a snapshot that
already held one querier unit; every concrete role's count grows by 2 and the
published address lands under the `all` key. -/
theorem C2_amended_meta_role_witness :
    TempoRole.all ∉ keysOf (gather_roles [⟨some TempoRole.querier, [some "q"]⟩])
    ∧ cget (gather_roles ([⟨some TempoRole.querier, [some "q"]⟩]
          ++ [⟨some TempoRole.all, [some "w0", some "w1"]⟩])) TempoRole.ingester
        = cget (gather_roles [⟨some TempoRole.querier, [some "q"]⟩]) TempoRole.ingester + 2
    ∧ "w0" ∈ mget (gather_addresses_by_role ([⟨some TempoRole.querier, [some "q"]⟩]
          ++ [⟨some TempoRole.all, [some "w0", some "w1"]⟩])) TempoRole.all := by
  have h := C2_amended_meta_role [⟨some TempoRole.querier, [some "q"]⟩]
    ⟨some TempoRole.all, [some "w0", some "w1"]⟩ rfl
  exact ⟨h.1, h.2.1 TempoRole.ingester (by decide), h.2.2 "w0" (by decide)⟩

/-- C5 counterexample: one relation whose app databag decodes to `querier` but
whose single unit databag fails validation. The claim says such a record
contributes nothing to the aggregated role counts; the code counts
`role_n = len(relation.units)` without decoding unit data, so the invalid unit
still contributes 1 to the querier count (while, as claimed, contributing no
address). -/
theorem C5_counterexample :
    gather_roles [⟨some TempoRole.querier, [none]⟩] = [(TempoRole.querier, 1)]
    ∧ gather_addresses_by_role [⟨some TempoRole.querier, [none]⟩] = [] :=
  ⟨rfl, rfl⟩

/-- C5 amended: a record whose role fails to decode is skipped entirely by
both aggregations and never blocks the rest of the snapshot; a record whose
unit data is invalid contributes nothing to the address sets (the other
records still aggregate), but it still contributes to the role count, which is
the number of units of the relation regardless of unit-data validity. Both
aggregations are total functions: no failure escapes them. -/
theorem C5_amended_partial_failure (s1 s2 : Snapshot)
    (us us1 us2 : List (Option String)) (r : TempoRole)
    (h : r ≠ TempoRole.all) :
    gather_roles (s1 ++ ⟨none, us⟩ :: s2) = gather_roles (s1 ++ s2)
    ∧ gather_addresses_by_role (s1 ++ ⟨none, us⟩ :: s2)
        = gather_addresses_by_role (s1 ++ s2)
    ∧ gather_addresses_by_role (s1 ++ ⟨some r, us1 ++ none :: us2⟩ :: s2)
        = gather_addresses_by_role (s1 ++ ⟨some r, us1 ++ us2⟩ :: s2)
    ∧ cget (gather_roles (s1 ++ [⟨some r, us⟩])) r
        = cget (gather_roles s1) r + us.length := by
  refine ⟨?_, ?_, ?_, ?_⟩
  · simp [gather_roles, List.foldl_append, rolesStep]
  · simp [gather_addresses_by_role, List.foldl_append, addrStep]
  · simp [gather_addresses_by_role, List.foldl_append, addrStep, unitStep]
  · have hstep : gather_roles (s1 ++ [⟨some r, us⟩])
        = rolesStep (gather_roles s1) ⟨some r, us⟩ := by
      simp [gather_roles, List.foldl_append]
    rw [hstep]
    simp only [rolesStep, if_neg h]
    rw [cget_cincr, if_pos rfl]

/-- C5 amended witness: an undecodable-role relation and an invalid unit mixed
with valid records, evaluated concretely. -/
theorem C5_amended_partial_failure_witness :
    TempoRole.querier ≠ TempoRole.all
    ∧ gather_roles ([⟨some TempoRole.ingester, [some "i"]⟩]
          ++ ⟨none, [some "bad"]⟩ :: [⟨some TempoRole.compactor, [some "c"]⟩])
        = gather_roles ([⟨some TempoRole.ingester, [some "i"]⟩]
          ++ [⟨some TempoRole.compactor, [some "c"]⟩])
    ∧ cget (gather_roles ([⟨some TempoRole.ingester, [some "i"]⟩]
          ++ [⟨some TempoRole.querier, [none, some "q"]⟩])) TempoRole.querier
        = cget (gather_roles [⟨some TempoRole.ingester, [some "i"]⟩])
            TempoRole.querier + 2 := by
  refine ⟨by decide, ?_, ?_⟩
  · exact (C5_amended_partial_failure [⟨some TempoRole.ingester, [some "i"]⟩]
      [⟨some TempoRole.compactor, [some "c"]⟩] [some "bad"] [] []
      TempoRole.querier (by decide)).1
  · exact (C5_amended_partial_failure [⟨some TempoRole.ingester, [some "i"]⟩]
      [] [none, some "q"] [] [] TempoRole.querier (by decide)).2.2.2

/-- C10: a related worker application with a valid role and zero units inserts
its role as a key with count 0 (`data[worker_role] += 0` inserts the key into
the `Counter`); a zero-unit `all`-role application therefore inserts every
concrete role, making the snapshot coherent with no missing roles even though
no worker address exists at all. -/
theorem C10_zero_unit_role_keys (snap : Snapshot) (r : TempoRole)
    (h : r ≠ TempoRole.all) :
    r ∈ keysOf (gather_roles (snap ++ [⟨some r, []⟩]))
    ∧ cget (gather_roles (snap ++ [⟨some r, []⟩])) r = cget (gather_roles snap) r
    ∧ gather_roles [⟨some TempoRole.querier, []⟩] = [(TempoRole.querier, 0)]
    ∧ is_coherent (gather_roles [⟨some TempoRole.all, []⟩]) = true
    ∧ missing_roles (gather_roles [⟨some TempoRole.all, []⟩]) = []
    ∧ gather_addresses [⟨some TempoRole.all, []⟩] = [] := by
  have hstep : gather_roles (snap ++ [⟨some r, []⟩])
      = rolesStep (gather_roles snap) ⟨some r, []⟩ := by
    simp [gather_roles, List.foldl_append]
  refine ⟨?_, ?_, rfl, by decide, by decide, rfl⟩
  · rw [hstep]
    simp only [rolesStep, if_neg h]
    exact (mem_keysOf_cincr _ _ _ _).2 (Or.inl rfl)
  · rw [hstep]
    simp only [rolesStep, if_neg h]
    rw [cget_cincr, if_pos rfl]
    simp

/-- C10 witness: concrete evaluation at an empty prior snapshot and the
querier role. -/
theorem C10_zero_unit_role_keys_witness :
    TempoRole.querier ∈ keysOf (gather_roles ([] ++ [⟨some TempoRole.querier, []⟩]))
    ∧ cget (gather_roles ([] ++ [⟨some TempoRole.querier, []⟩])) TempoRole.querier
        = cget (gather_roles []) TempoRole.querier :=
  ⟨(C10_zero_unit_role_keys [] TempoRole.querier (by decide)).1,
   (C10_zero_unit_role_keys [] TempoRole.querier (by decide)).2.1⟩

theorem mem_foldl_sadd (xs acc : List String) (a : String) :
    a ∈ xs.foldl sadd acc ↔ a ∈ xs ∨ a ∈ acc := by
  induction xs generalizing acc with
  | nil => simp
  | cons x tl ih =>
    rw [List.foldl_cons, ih]
    simp [mem_sadd]
    tauto

theorem appearsIn_cons (p : TempoRole × List String)
    (m : List (TempoRole × List String)) (a : String) :
    appearsIn (p :: m) a ↔ a ∈ p.2 ∨ appearsIn m a := by
  constructor
  · rintro ⟨rs, hrs, hmem⟩
    rcases List.mem_cons.1 hrs with h | h
    · exact Or.inl (h ▸ hmem)
    · exact Or.inr ⟨rs, h, hmem⟩
  · rintro (h | ⟨rs, hrs, hmem⟩)
    · exact ⟨p, List.mem_cons_self _ _, h⟩
    · exact ⟨rs, List.mem_cons_of_mem _ hrs, hmem⟩

theorem appearsIn_madd (m : List (TempoRole × List String)) (r : TempoRole)
    (b a : String) : appearsIn (madd m r b) a ↔ a = b ∨ appearsIn m a := by
  induction m with
  | nil =>
    rw [show madd [] r b = [(r, [b])] from rfl, appearsIn_cons]
    simp [appearsIn]
  | cons hd tl ih =>
    obtain ⟨r', s⟩ := hd
    by_cases h : r' = r
    · subst h
      have hm : madd ((r', s) :: tl) r' b = (r', sadd s b) :: tl := by
        simp [madd]
      rw [hm, appearsIn_cons, appearsIn_cons]
      rw [show ((r', sadd s b) : TempoRole × List String).2 = sadd s b from rfl,
        mem_sadd]
      tauto
    · have hm : madd ((r', s) :: tl) r b = (r', s) :: madd tl r b := by
        simp [madd, h]
      rw [hm, appearsIn_cons, appearsIn_cons, ih]
      tauto

theorem appearsIn_foldl_units (us : List (Option String)) (r : TempoRole)
    (m : List (TempoRole × List String)) (a : String) :
    appearsIn (us.foldl (unitStep r) m) a ↔ some a ∈ us ∨ appearsIn m a := by
  induction us generalizing m with
  | nil => simp
  | cons u tl ih =>
    cases u with
    | none => simp [unitStep, ih]
    | some b =>
      rw [List.foldl_cons]
      show appearsIn (tl.foldl (unitStep r) (madd m r b)) a ↔ _
      rw [ih, appearsIn_madd]
      simp
      tauto

theorem appearsIn_addrStep (m : List (TempoRole × List String))
    (rel : ClusterRelation) (a : String) :
    appearsIn (addrStep m rel) a ↔
      (∃ r, rel.appRole = some r ∧ some a ∈ rel.units) ∨ appearsIn m a := by
  rcases hrel : rel.appRole with _ | role
  · simp [addrStep, hrel]
  · simp only [addrStep, hrel]
    rw [appearsIn_foldl_units]
    simp

theorem appearsIn_foldl_addrStep (snap : Snapshot)
    (m : List (TempoRole × List String)) (a : String) :
    appearsIn (snap.foldl addrStep m) a ↔
      (∃ rel ∈ snap, ∃ r, rel.appRole = some r ∧ some a ∈ rel.units)
        ∨ appearsIn m a := by
  induction snap generalizing m with
  | nil => simp
  | cons rel tl ih =>
    rw [List.foldl_cons, ih, appearsIn_addrStep]
    simp only [List.mem_cons]
    constructor
    · rintro (⟨r2, h2⟩ | (h1 | h1))
      · exact Or.inl ⟨r2, Or.inr h2.1, h2.2⟩
      · exact Or.inl ⟨rel, Or.inl rfl, h1⟩
      · exact Or.inr h1
    · rintro (⟨r2, hr2 | hr2, h2⟩ | h1)
      · exact Or.inr (Or.inl (hr2 ▸ h2))
      · exact Or.inl ⟨r2, hr2, h2⟩
      · exact Or.inr (Or.inr h1)

/-- Membership in `gather_addresses`: exactly the valid addresses of relations
whose app databag decodes to some role (the union across all roles). -/
theorem mem_gather_addresses (snap : Snapshot) (a : String) :
    a ∈ gather_addresses snap ↔
      ∃ rel ∈ snap, ∃ r, rel.appRole = some r ∧ some a ∈ rel.units := by
  have hfold : ∀ (l : List (TempoRole × List String)) (acc : List String),
      a ∈ l.foldl (fun acc rs => rs.2.foldl sadd acc) acc ↔
        appearsIn l a ∨ a ∈ acc := by
    intro l
    induction l with
    | nil => intro acc; simp [appearsIn]
    | cons rs tl ih =>
      intro acc
      rw [List.foldl_cons, ih, mem_foldl_sadd]
      simp only [appearsIn, List.mem_cons]
      constructor
      · rintro (⟨rs', hrs', hmem⟩ | (h1 | h1))
        · exact Or.inl ⟨rs', Or.inr hrs', hmem⟩
        · exact Or.inl ⟨rs, Or.inl rfl, h1⟩
        · exact Or.inr h1
      · rintro (⟨rs', hrs' | hrs', hmem⟩ | h1)
        · exact Or.inr (Or.inl (hrs' ▸ hmem))
        · exact Or.inl ⟨rs', hrs', hmem⟩
        · exact Or.inr (Or.inr h1)
  rw [gather_addresses, hfold]
  rw [show gather_addresses_by_role snap = snap.foldl addrStep [] from rfl]
  rw [appearsIn_foldl_addrStep]
  simp [appearsIn]

theorem mget_eq_nil_of_not_mem (m : List (TempoRole × List String))
    (r : TempoRole) (h : r ∉ keysOf m) : mget m r = [] := by
  induction m with
  | nil => rfl
  | cons hd tl ih =>
    obtain ⟨r', s⟩ := hd
    simp only [keysOf, List.map_cons, List.mem_cons] at h
    push_neg at h
    simp only [mget, if_neg (fun hc : r' = r => h.1 hc.symm)]
    exact ih (by simpa [keysOf] using h.2)

/-- C3: the replication factor is `max(1, |ingester addresses|)` — three
distinct ingester addresses give 3, one gives 1, and a mapping without any
ingester key gives 1 (monolithic deployment); the factor is never below 1. -/
theorem C3_replication_factor :
    (build_ingester_config [(TempoRole.querier, ["addr1"]),
        (TempoRole.ingester, ["addr1", "addr2", "addr3"])]).lifecycler.ring.replication_factor = 3
    ∧ (build_ingester_config
        [(TempoRole.querier, ["addr1"])]).lifecycler.ring.replication_factor = 1
    ∧ (build_ingester_config [(TempoRole.ingester, ["addr2"]),
        (TempoRole.querier, ["addr1"])]).lifecycler.ring.replication_factor = 1
    ∧ (∀ m, TempoRole.ingester ∉ keysOf m →
        (build_ingester_config m).lifecycler.ring.replication_factor = 1)
    ∧ (∀ m, 1 ≤ (build_ingester_config m).lifecycler.ring.replication_factor) := by
  refine ⟨by decide, by decide, by decide, ?_, ?_⟩
  · intro m h
    simp [build_ingester_config, mget_eq_nil_of_not_mem m TempoRole.ingester h]
  · intro m
    simp [build_ingester_config]

/-- C3 witness: the no-ingester-key branch applied at a concrete mapping. -/
theorem C3_replication_factor_witness :
    TempoRole.ingester ∉ keysOf [(TempoRole.querier, ["addr1"])]
    ∧ (build_ingester_config
        [(TempoRole.querier, ["addr1"])]).lifecycler.ring.replication_factor = 1 :=
  ⟨by decide, C3_replication_factor.2.2.2.1 [(TempoRole.querier, ["addr1"])] (by decide)⟩

/-- C8: the memberlist section built over `gather_addresses` has
`abort_if_cluster_join_fails = false`, its join members are exactly the
gathered addresses suffixed with `:7946`, the gathered addresses are the
union over all roles of the valid worker unit addresses, and an empty peer
set yields an empty join list with the same flag. -/
theorem C8_memberlist_config (snap : Snapshot) :
    (build_memberlist_config (gather_addresses snap)).abort_if_cluster_join_fails = false
    ∧ (build_memberlist_config (gather_addresses snap)).join_members
        = (gather_addresses snap).map (fun p => p ++ ":7946")
    ∧ (∀ a, a ∈ gather_addresses snap ↔
        ∃ rel ∈ snap, ∃ r, rel.appRole = some r ∧ some a ∈ rel.units)
    ∧ build_memberlist_config [] = ⟨false, 7946, []⟩ := by
  exact ⟨rfl, rfl, fun a => mem_gather_addresses snap a, rfl⟩

/-- C7: the synthesized config carries a metrics-generator section and an
overrides section iff a remote-write target was supplied; with targets
supplied, the section embeds exactly those targets. -/
theorem C7_metrics_generator_sections (targets : List String) :
    ((generate_metrics_sections targets).metrics_generator = none ↔ targets = [])
    ∧ ((generate_metrics_sections targets).overrides = none ↔ targets = [])
    ∧ ((generate_metrics_sections targets).metrics_generator.map
          (fun mg => mg.storage.remote_write)
        = if targets.isEmpty then none else some targets) := by
  rcases targets with _ | ⟨t, ts⟩ <;> simp [generate_metrics_sections]
